import Mathlib

/-!
Verification development for the point-cloud / COLMAP ingestion core of the
repository (`backend/app/services/point_cloud.py` and
`backend/app/services/colmap_parser.py`).

Modelling conventions (shallow embedding):

* A text file is a `List String` of its lines.  Python's
  `line.strip().split()` is modelled by `tokens`; the comment regex
  `^\s*#` by `isComment`.
* Python's `int(tok)` / `float(tok)` are modelled by `pyInt` / `pyFloat`,
  returning `none` when conversion fails.  The success domain is the usual
  decimal grammar (optional sign, digits, optional fraction and exponent);
  exotic accepted spellings (underscore separators, `inf`/`nan`, unicode
  digits) are outside the modelled domain, and all universally quantified
  theorems are conditioned on success of this grammar.
* A raised Python exception is modelled by `Except.error` carrying exactly
  the information the exception's message carries: `invalidInt tok` /
  `invalidFloat tok` for `ValueError: invalid literal ... 'tok'`, and
  `indexOutOfRange` for `IndexError: list index out of range` (which names
  neither file, line, nor token).
* Numeric values held in numpy arrays are modelled by `ℚ` (every float32 is
  a rational; the concrete inputs used in counterexamples are exactly
  representable and the operations on them are exact in float32).
* For the binary encoder, a float32 *position* coordinate is modelled by its
  32-bit pattern (a `ℕ < 2^32`): `ndarray.tobytes()` writes exactly these
  four bytes little-endian, and recovering the pattern is recovering the
  float32 value exactly.
-/

deriving instance DecidableEq for Except

namespace PCSpec

/-! ### Python numeric token conversion -/

/-- Numeric value of a digit list (most significant first). -/
def digitsVal (cs : List Char) : ℕ :=
  cs.foldl (fun a c => 10 * a + (c.toNat - 48)) 0

/-- `some` value of a non-empty all-digit character list, else `none`. -/
def digitsToNat (cs : List Char) : Option ℕ :=
  if cs.isEmpty then none
  else if cs.all Char.isDigit then some (digitsVal cs) else none

/-- Python `int(tok)` on a whitespace-free token: optional sign then digits. -/
def pyInt (s : String) : Option ℤ :=
  match s.toList with
  | [] => none
  | c :: cs =>
    if c = '-' then (digitsToNat cs).map (fun n => -(n : ℤ))
    else if c = '+' then (digitsToNat cs).map (fun n => (n : ℤ))
    else (digitsToNat (c :: cs)).map (fun n => (n : ℤ))

/-- Unsigned decimal-float body: `D* [. D*] [(e|E) [sign] D+]`, at least one
mantissa digit.  Returns the exact rational value. -/
def pyFloatCore (cs : List Char) : Option ℚ :=
  let ds := cs.takeWhile Char.isDigit
  let rest := cs.dropWhile Char.isDigit
  let fs := match rest with
    | '.' :: r => r.takeWhile Char.isDigit
    | _ => []
  let rest2 := match rest with
    | '.' :: r => r.dropWhile Char.isDigit
    | _ => rest
  if ds.isEmpty && fs.isEmpty then none
  else
    let mant : ℚ := (digitsVal ds : ℚ) + (digitsVal fs : ℚ) / (10 ^ fs.length)
    match rest2 with
    | [] => some mant
    | e :: r3 =>
      if e = 'e' || e = 'E' then
        match r3 with
        | '-' :: r4 => (digitsToNat r4).map (fun n => mant / 10 ^ n)
        | '+' :: r4 => (digitsToNat r4).map (fun n => mant * 10 ^ n)
        | r4 => (digitsToNat r4).map (fun n => mant * 10 ^ n)
      else none

/-- Python `float(tok)` on a whitespace-free token (decimal grammar subset). -/
def pyFloat (s : String) : Option ℚ :=
  match s.toList with
  | [] => none
  | c :: cs =>
    if c = '-' then (pyFloatCore cs).map (fun q => -q)
    else if c = '+' then pyFloatCore cs
    else pyFloatCore (c :: cs)

/-! ### Line tokenization and filtering -/

/-- Splitting a character list into maximal whitespace-free words; `acc`
holds the reversed current word. -/
def wordsAux : List Char → List Char → List (List Char)
  | [], acc => if acc.isEmpty then [] else [acc.reverse]
  | c :: rest, acc =>
    if c.isWhitespace then
      if acc.isEmpty then wordsAux rest [] else acc.reverse :: wordsAux rest []
    else wordsAux rest (c :: acc)

/-- Python `line.strip().split()`: the whitespace-separated words of the
line, with no empty tokens. -/
def tokens (line : String) : List String :=
  (wordsAux line.toList []).map List.asString

/-- The `^\s*#` comment test of `colmap_parser._COMMENT`. -/
def isComment (line : String) : Bool :=
  match line.toList.dropWhile Char.isWhitespace with
  | c :: _ => c = '#'
  | [] => false

/-- A line survives the parser's filter: not a comment and not blank. -/
def keepLine (line : String) : Bool :=
  !isComment line && !(tokens line).isEmpty

/-! ### COLMAP data model (`models/schemas.py`) -/

/-- `schemas.Quaternion` with rational-valued components. -/
structure Quat where
  w : ℚ
  x : ℚ
  y : ℚ
  z : ℚ
deriving DecidableEq

/-- `schemas.Vec3` with rational-valued components. -/
structure V3 where
  x : ℚ
  y : ℚ
  z : ℚ
deriving DecidableEq

/-- `schemas.ColmapCamera`. -/
structure ColmapCamera where
  id : ℤ
  model : String
  width : ℤ
  height : ℤ
  params : List ℚ
deriving DecidableEq

/-- `schemas.ColmapImage` (the parse-time fields; `room_id` stays `None`). -/
structure ColmapImage where
  id : ℤ
  rotation : Quat
  translation : V3
  camera_id : ℤ
  name : String
deriving DecidableEq

/-- One `points3D.txt` record (the raw dict built by `parse_points3d_txt`). -/
structure SparsePoint where
  id : ℤ
  x : ℚ
  y : ℚ
  z : ℚ
  r : ℤ
  g : ℤ
  b : ℤ
  err : ℚ
deriving DecidableEq

/-- The information carried by the Python exceptions the parsers can raise:
`ValueError: invalid literal for int() with base 10: 'tok'`,
`ValueError: could not convert string to float: 'tok'`, and
`IndexError: list index out of range` (which carries no token at all). -/
inductive PyErr where
  | invalidInt (tok : String)
  | invalidFloat (tok : String)
  | indexOutOfRange
deriving DecidableEq

/-- `parts[i]`: Python list indexing, raising `IndexError` out of range. -/
def geti (parts : List String) (i : ℕ) : Except PyErr String :=
  match parts.get? i with
  | some t => Except.ok t
  | none => Except.error PyErr.indexOutOfRange

/-- `int(tok)`, raising `ValueError` on failure. -/
def toInt (tok : String) : Except PyErr ℤ :=
  match pyInt tok with
  | some n => Except.ok n
  | none => Except.error (PyErr.invalidInt tok)

/-- `float(tok)`, raising `ValueError` on failure. -/
def toFloat (tok : String) : Except PyErr ℚ :=
  match pyFloat tok with
  | some q => Except.ok q
  | none => Except.error (PyErr.invalidFloat tok)

/-! ### `parse_cameras_txt` -/

/-- Body of the `parse_cameras_txt` loop for one kept line, arguments
evaluated in Python's left-to-right keyword order:
`ColmapCamera(id=int(parts[0]), model=parts[1], width=int(parts[2]),
height=int(parts[3]), params=[float(p) for p in parts[4:]])`. -/
def parseCameraLine (parts : List String) : Except PyErr ColmapCamera := do
  let t0 ← geti parts 0
  let id ← toInt t0
  let model ← geti parts 1
  let t2 ← geti parts 2
  let width ← toInt t2
  let t3 ← geti parts 3
  let height ← toInt t3
  let params ← (parts.drop 4).mapM toFloat
  pure ⟨id, model, width, height, params⟩

/-- `colmap_parser.parse_cameras_txt` on the file's lines.  An exception on
any line aborts the whole parse (Python propagates it out of the loop). -/
def parse_cameras_txt (lines : List String) : Except PyErr (List ColmapCamera) :=
  (lines.filter keepLine).mapM (fun l => parseCameraLine (tokens l))

/-! ### `parse_images_txt` -/

/-- Body of the image-record construction (lines 57-72 of the source),
fields evaluated in source order. -/
def parseImageLine (parts : List String) : Except PyErr ColmapImage := do
  let t0 ← geti parts 0
  let id ← toInt t0
  let t1 ← geti parts 1
  let qw ← toFloat t1
  let t2 ← geti parts 2
  let qx ← toFloat t2
  let t3 ← geti parts 3
  let qy ← toFloat t3
  let t4 ← geti parts 4
  let qz ← toFloat t4
  let t5 ← geti parts 5
  let tx ← toFloat t5
  let t6 ← geti parts 6
  let ty ← toFloat t6
  let t7 ← geti parts 7
  let tz ← toFloat t7
  let t8 ← geti parts 8
  let cid ← toInt t8
  let t9 ← geti parts 9
  pure ⟨id, ⟨qw, qx, qy, qz⟩, ⟨tx, ty, tz⟩, cid, t9⟩

/-- The `while i < len(lines)` loop of `parse_images_txt`: a line with fewer
than 10 tokens advances by one (`i += 1`, skipped silently); otherwise the
record is parsed and the following line is skipped too (`i += 2`). -/
def imagesLoop : List String → Except PyErr (List ColmapImage)
  | [] => Except.ok []
  | [l] =>
    let parts := tokens l
    if parts.length < 10 then Except.ok []
    else do
      let img ← parseImageLine parts
      pure [img]
  | l :: l2 :: rest =>
    let parts := tokens l
    if parts.length < 10 then imagesLoop (l2 :: rest)
    else do
      let img ← parseImageLine parts
      let more ← imagesLoop rest
      pure (img :: more)

/-- `colmap_parser.parse_images_txt`: filter comments/blanks, then pair up. -/
def parse_images_txt (lines : List String) : Except PyErr (List ColmapImage) :=
  imagesLoop (lines.filter keepLine)

/-- The record parsed from an odd line (meaningful when parsing succeeds). -/
def parsedImage (l : String) : ColmapImage :=
  match parseImageLine (tokens l) with
  | Except.ok img => img
  | Except.error _ => ⟨0, ⟨1, 0, 0, 0⟩, ⟨0, 0, 0⟩, 0, ""⟩

/-- `Except` success test. -/
def isOkb {ε α : Type} : Except ε α → Bool
  | Except.ok _ => true
  | Except.error _ => false

/-! ### `parse_points3d_txt` -/

/-- One `points3D.txt` record, dict fields evaluated in source order:
`int(parts[0])`, `float(parts[1..3])`, `int(parts[4..6])`, `float(parts[7])`. -/
def parsePointLine (parts : List String) : Except PyErr SparsePoint := do
  let t0 ← geti parts 0
  let id ← toInt t0
  let t1 ← geti parts 1
  let px ← toFloat t1
  let t2 ← geti parts 2
  let py ← toFloat t2
  let t3 ← geti parts 3
  let pz ← toFloat t3
  let t4 ← geti parts 4
  let cr ← toInt t4
  let t5 ← geti parts 5
  let cg ← toInt t5
  let t6 ← geti parts 6
  let cb ← toInt t6
  let t7 ← geti parts 7
  let er ← toFloat t7
  pure ⟨id, px, py, pz, cr, cg, cb, er⟩

/-- `colmap_parser.parse_points3d_txt` on the file's lines. -/
def parse_points3d_txt (lines : List String) : Except PyErr (List SparsePoint) :=
  (lines.filter keepLine).mapM (fun l => parsePointLine (tokens l))

/-! ### `load_colmap_workspace` -/

/-- A workspace directory: contents of each of the three optional files
(`none` = file absent). -/
structure ColmapWorkspace where
  cameras : Option (List String)
  images : Option (List String)
  points : Option (List String)
deriving DecidableEq

/-- The result dict of `load_colmap_workspace` (absent file = absent key). -/
structure ColmapResult where
  cameras : Option (List ColmapCamera)
  images : Option (List ColmapImage)
  points : Option (List SparsePoint)
deriving DecidableEq

/-- `colmap_parser.load_colmap_workspace`: parse each present file in order;
any exception propagates and aborts the whole load. -/
def load_colmap_workspace (ws : ColmapWorkspace) : Except PyErr ColmapResult := do
  let cams ← match ws.cameras with
    | none => pure none
    | some ls => Except.map some (parse_cameras_txt ls)
  let imgs ← match ws.images with
    | none => pure none
    | some ls => Except.map some (parse_images_txt ls)
  let pts ← match ws.points with
    | none => pure none
    | some ls => Except.map some (parse_points3d_txt ls)
  pure ⟨cams, imgs, pts⟩

/-! ### Point-cloud loader (`point_cloud.py`)

A loaded numeric table is a `List (List ℚ)` of rows (numpy 2-d array);
`numCols` is `shape[1]` (rows are rectangular in every reachable state,
stated as a hypothesis where it matters). -/

/-- `data.shape[1]` of a 2-d array given by its rows. -/
def numCols (data : List (List ℚ)) : ℕ := (data.headD []).length

/-- The flattened color block `data[:, 3:6]` (row-major). -/
def colorEntries (data : List (List ℚ)) : List ℚ :=
  data.flatMap (fun r => (r.drop 3).take 3)

/-- `data[:, 3:6].max()`: maximum over all color samples (the source only
evaluates this on a non-empty block; the `[]` branch is never reached under
the theorems' hypotheses). -/
def colorMax (data : List (List ℚ)) : ℚ :=
  match colorEntries data with
  | [] => 0
  | x :: xs => xs.foldl max x

/-- Effect of the in-place `data[:, 3:6] /= 255.0` on one row. -/
def scaleRow (r : List ℚ) : List ℚ :=
  r.take 3 ++ ((r.drop 3).take 3).map (fun c => c / 255) ++ r.drop 6

/-- Lines 64-70 of `load_point_cloud`: the color-normalisation policy and
column slicing applied to a loaded table. -/
def load_from_table (data : List (List ℚ)) : List (List ℚ) × Bool :=
  if 6 ≤ numCols data then
    if 3 / 2 < colorMax data then
      ((data.map scaleRow).map (fun r => r.take 6), true)
    else (data.map (fun r => r.take 6), true)
  else (data.map (fun r => r.take 3), false)

/-- A numpy array as returned by `np.loadtxt`: 0-d scalar, 1-d, or 2-d. -/
inductive NpArr where
  | scalar (x : ℚ)
  | oneD (xs : List ℚ)
  | twoD (rows : List (List ℚ))
deriving DecidableEq

/-- `np.loadtxt` on the numeric table parsed from the file: an empty input
yields an empty 1-d array (with a warning, not an error); a single scalar a
0-d array; a single row or a single column a 1-d array; otherwise a 2-d
array, provided all rows have equal length (ragged input raises, i.e.
`none`, which `_load_xyz` catches). -/
def loadtxt (rows : List (List ℚ)) : Option NpArr :=
  if rows.all (fun r => r.length = numCols rows) then
    match rows with
    | [] => some (NpArr.oneD [])
    | [[x]] => some (NpArr.scalar x)
    | [r] => some (NpArr.oneD r)
    | rs =>
      if numCols rs = 1 then some (NpArr.oneD (rs.map (fun r => r.headD 0)))
      else some (NpArr.twoD rs)
  else none

/-- `point_cloud._load_xyz`: `loadtxt` then `reshape(1, -1)` of 1-d data. -/
def load_xyz (rows : List (List ℚ)) : Option NpArr :=
  (loadtxt rows).map (fun a =>
    match a with
    | NpArr.oneD xs => NpArr.twoD [xs]
    | other => other)

/-- Failures `load_point_cloud` can raise: the explicit
`ValueError("Unable to load point cloud from ...")`, and the `IndexError`
from `data.shape[1]` when `loadtxt` produced a 0-d array. -/
inductive LoadErr where
  | unableToLoad
  | shapeIndex
deriving DecidableEq

/-- `point_cloud.load_point_cloud`: dispatch by suffix, rich-format oracle
first for `.ply`/`.pcd` (its result is `rich`, with `none` covering an
unavailable backend, a parse failure, or an empty cloud, as in
`_try_open3d`), text fallback otherwise; raise when both produce nothing.
`rows` is the numeric table of the file's text content. -/
def load_point_cloud (suffix : String) (rich : Option (List (List ℚ)))
    (rows : List (List ℚ)) : Except LoadErr (List (List ℚ) × Bool) :=
  let data : Option NpArr :=
    match (if suffix = ".ply" || suffix = ".pcd" then rich.map NpArr.twoD else none) with
    | some d => some d
    | none => load_xyz rows
  match data with
  | none => Except.error LoadErr.unableToLoad
  | some (NpArr.scalar _) => Except.error LoadErr.shapeIndex
  | some (NpArr.oneD xs) => Except.ok (load_from_table [xs])
  | some (NpArr.twoD rs) => Except.ok (load_from_table rs)

/-! ### Point-cloud info (`point_cloud_info`, lines 73-85) -/

/-- The metadata record `schemas.PointCloudInfo`. -/
structure PCInfo where
  file : String
  num_points : ℕ
  bounds_min : V3
  bounds_max : V3
  has_colors : Bool
  has_normals : Bool
deriving DecidableEq

/-- Failures of the bounds computation: numpy's
`ValueError: zero-size array to reduction operation minimum which has no
identity` on a cloud with no points (§7 of the spec calls this condition
`EmptyCloudError`), and the `IndexError` when fewer than 3 columns exist. -/
inductive InfoErr where
  | emptyReduction
  | boundsIndex
deriving DecidableEq

/-- Column `j` of a table. -/
def colVals (j : ℕ) (arr : List (List ℚ)) : List ℚ :=
  arr.map (fun r => r.getD j 0)

/-- `arr[:, :3].min(axis=0)[j]` over a non-empty list of rows. -/
def axisMin (j : ℕ) (r0 : List ℚ) (rest : List (List ℚ)) : ℚ :=
  (colVals j rest).foldl min (r0.getD j 0)

/-- `arr[:, :3].max(axis=0)[j]` over a non-empty list of rows. -/
def axisMax (j : ℕ) (r0 : List ℚ) (rest : List (List ℚ)) : ℚ :=
  (colVals j rest).foldl max (r0.getD j 0)

/-- `point_cloud.point_cloud_info` after the cloud has been loaded (the
`describe` operation of the spec): per-axis min/max over all positions; a
zero-point cloud makes the reduction fail, a cloud with fewer than 3
columns makes the component indexing fail. -/
def point_cloud_info (file : String) (arr : List (List ℚ)) (has_colors : Bool) :
    Except InfoErr PCInfo :=
  match arr with
  | [] => Except.error InfoErr.emptyReduction
  | r0 :: rest =>
    if numCols (r0 :: rest) < 3 then Except.error InfoErr.boundsIndex
    else
      Except.ok
        { file := file
          num_points := (r0 :: rest).length
          bounds_min := ⟨axisMin 0 r0 rest, axisMin 1 r0 rest, axisMin 2 r0 rest⟩
          bounds_max := ⟨axisMax 0 r0 rest, axisMax 1 r0 rest, axisMax 2 r0 rest⟩
          has_colors := has_colors
          has_normals := false }

/-! ### Binary encoder (`to_binary_buffer`, lines 88-105)

Positions are float32 values; `tobytes()` writes each one's 32-bit pattern
little-endian, so a position coordinate is modelled by that pattern
(a `ℕ < 2^32`).  Color channels are modelled by their exact rational
values, on which the `* 255 → clip → uint8-cast` arithmetic acts. -/

/-- The in-memory cloud fed to the encoder: `positions` are the float32 bit
patterns of x,y,z per point; `colors` the exact values of the normalised
color channels (meaningful only when `has_colors`). -/
structure PointCloud where
  positions : List (ℕ × ℕ × ℕ)
  colors : List (ℚ × ℚ × ℚ)
  has_colors : Bool
deriving DecidableEq

/-- Little-endian 4-byte serialisation of a 32-bit word, as written by
`struct.pack("<I", n)` and by `tobytes()` for one float32. -/
def u32le (n : ℕ) : List ℕ :=
  [n % 256, n / 256 % 256, n / 65536 % 256, n / 16777216 % 256]

/-- `arr[:, :3].astype(np.float32).tobytes()`. -/
def posBytes (ps : List (ℕ × ℕ × ℕ)) : List ℕ :=
  ps.flatMap (fun p => u32le p.1 ++ u32le p.2.1 ++ u32le p.2.2)

/-- One channel of `(arr[:, 3:6] * 255).clip(0, 255).astype(np.uint8)`:
clip to [0, 255] then cast, which truncates toward zero (= floor on the
clipped, non-negative value). -/
def colorByte (c : ℚ) : ℕ :=
  (Int.floor (min (max (c * 255) 0) 255)).toNat

/-- `colors.tobytes()` for the clipped uint8 color array. -/
def colorBytes (cs : List (ℚ × ℚ × ℚ)) : List ℕ :=
  cs.flatMap (fun c => [colorByte c.1, colorByte c.2.1, colorByte c.2.2])

/-- `point_cloud.to_binary_buffer` on an already-loaded cloud:
`struct.pack("<IB", n, int(has_colors))`, the position block, then (only
with colors) the color block. -/
def to_binary_buffer (pc : PointCloud) : List ℕ :=
  u32le pc.positions.length ++ [if pc.has_colors then 1 else 0]
    ++ posBytes pc.positions
    ++ (if pc.has_colors then colorBytes pc.colors else [])

/-! ### Decoder, written against the §4.5 wire-format table of the spec
(not against any source function — the client-side layout to compare
`to_binary_buffer` with). -/

/-- Read a little-endian unsigned 32-bit value from the head of a byte list. -/
def rd4 (bs : List ℕ) : ℕ :=
  bs.getD 0 0 + 256 * bs.getD 1 0 + 65536 * bs.getD 2 0 + 16777216 * bs.getD 3 0

/-- Read `n` positions (3 × 4 bytes each) from the head of a byte list. -/
def rdPositions : ℕ → List ℕ → List (ℕ × ℕ × ℕ)
  | 0, _ => []
  | n + 1, bs => (rd4 bs, rd4 (bs.drop 4), rd4 (bs.drop 8)) :: rdPositions n (bs.drop 12)

/-- §4.5 decoding of the position block: `N` from bytes 0-3, positions from
offset 5 on. -/
def decode_positions (buf : List ℕ) : List (ℕ × ℕ × ℕ) :=
  rdPositions (rd4 buf) (buf.drop 5)

/-- The per-channel formula the spec's §4.5 table declares for color bytes:
`round(clamp(color*255, 0, 255))` (rounding to nearest). -/
def specColorByte (c : ℚ) : ℤ :=
  round (min (max (c * 255) 0) 255)

/-- Concrete cloud used to witness C1. -/
def c1PC : PointCloud :=
  ⟨[(1, 2, 3), (1065353216, 5, 4000000000)], [(1/2, 0, 1), (1, 1, 1)], true⟩

/-- Concrete cloud used to witness C2: channels 1/2, 3/4, 1 map to bytes
127 (floor of 127.5), 191 (floor of 191.25), 255. -/
def c2PC : PointCloud := ⟨[(0, 0, 0)], [(1/2, 3/4, 1)], true⟩

/-- Concrete cloud refuting C2 as stated: its single red channel is
3/1024, whose clipped scaled value 765/1024 ≈ 0.747 is emitted as byte 0
(truncation) while `round(clamp(color*255, 0, 255))` is 1. -/
def c2BadPC : PointCloud := ⟨[(0, 0, 0)], [(3/1024, 0, 0)], true⟩

/-- Concrete table used to witness C5 (scaling case): one sample 200
exceeds the threshold, so even the second point's in-range colors are
divided by 255. -/
def c5Data : List (List ℚ) := [[0, 0, 0, 200, 10, 10], [4, 5, 6, 1, 1, 1]]

/-- Concrete table used to witness C4: all raw colors lie in [0, 255] with
one sample above the threshold, so the invariant holds. -/
def c4Data : List (List ℚ) := [[1, 2, 3, 255, 0, 51]]

/-- Concrete table refuting C4 as stated: the red sample 7/5 is below the
3/2 threshold, so no scaling is applied and the returned channel 7/5 lies
outside [0, 1]. -/
def c4BadData : List (List ℚ) := [[0, 0, 0, 7/5, 0, 0]]

/-- Concrete cloud used to witness C3 on the non-empty side; the empty side
is closed (no hypothesis) and evaluated directly inside the witness too. -/
def c3Arr : List (List ℚ) := [[1, 5, 3], [4, 0, 9]]

/-- Concrete pair list used to witness C6. -/
def c6Pairs : List (String × String) :=
  [("7 1 0 0 0 0 0 0 3 frame007.jpg", "100 200 1"),
   ("9 0 1 0 0 5 5 5 3 frame009.jpg", "4 4 2")]

/-! ### Machinery for the `images.txt` claims -/

/-- `(pyInt t).getD 0`: the parsed integer of a token known to convert. -/
def pyIntD (t : String) : ℤ := (pyInt t).getD 0

/-- `(pyFloat t).getD 0`: the parsed float of a token known to convert. -/
def pyFloatD (t : String) : ℚ := (pyFloat t).getD 0

/-- The `ImagePose` record built from the tokens of a well-formed odd line:
`IMAGE_ID QW QX QY QZ TX TY TZ CAMERA_ID NAME`, every numeric field exactly
the parsed token (no renormalisation of the quaternion). -/
def imageOfTokens (parts : List String) : ColmapImage :=
  ⟨pyIntD (parts.getD 0 ""),
   ⟨pyFloatD (parts.getD 1 ""), pyFloatD (parts.getD 2 ""),
    pyFloatD (parts.getD 3 ""), pyFloatD (parts.getD 4 "")⟩,
   ⟨pyFloatD (parts.getD 5 ""), pyFloatD (parts.getD 6 ""),
    pyFloatD (parts.getD 7 "")⟩,
   pyIntD (parts.getD 8 ""),
   parts.getD 9 ""⟩

/-- A well-formed odd (image) line: at least 10 tokens and every numeric
token converts. -/
def wfImageLine (parts : List String) : Prop :=
  10 ≤ parts.length
  ∧ (pyInt (parts.getD 0 "")).isSome = true
  ∧ (pyFloat (parts.getD 1 "")).isSome = true
  ∧ (pyFloat (parts.getD 2 "")).isSome = true
  ∧ (pyFloat (parts.getD 3 "")).isSome = true
  ∧ (pyFloat (parts.getD 4 "")).isSome = true
  ∧ (pyFloat (parts.getD 5 "")).isSome = true
  ∧ (pyFloat (parts.getD 6 "")).isSome = true
  ∧ (pyFloat (parts.getD 7 "")).isSome = true
  ∧ (pyInt (parts.getD 8 "")).isSome = true

instance (parts : List String) : Decidable (wfImageLine parts) := by
  unfold wfImageLine
  infer_instance

/-- The raw line sequence of K odd/even line pairs. -/
def pairLines (ps : List (String × String)) : List String :=
  ps.flatMap (fun p => [p.1, p.2])

/-- A well-formed odd/even pair: both lines survive the comment/blank
filter and the odd line is a well-formed image line. -/
def wfImagePair (p : String × String) : Prop :=
  keepLine p.1 = true ∧ keepLine p.2 = true ∧ wfImageLine (tokens p.1)

instance (p : String × String) : Decidable (wfImagePair p) := by
  unfold wfImagePair
  infer_instance

/-! ### Encoder lemmas -/

theorem u32le_cons (n : ℕ) (r : List ℕ) :
    u32le n ++ r = n % 256 :: n / 256 % 256 :: n / 65536 % 256 :: n / 16777216 % 256 :: r :=
  rfl

theorem rd4_cons (a b c d : ℕ) (r : List ℕ) :
    rd4 (a :: b :: c :: d :: r) = a + 256 * b + 65536 * c + 16777216 * d := by
  simp [rd4]

theorem rd4_u32le (n : ℕ) (h : n < 4294967296) (r : List ℕ) :
    rd4 (u32le n ++ r) = n := by
  rw [u32le_cons, rd4_cons]
  omega

theorem drop4_u32le (n : ℕ) (r : List ℕ) : (u32le n ++ r).drop 4 = r := by
  rw [u32le_cons]
  rfl

theorem posBytes_nil : posBytes [] = [] := rfl

theorem posBytes_cons (p : ℕ × ℕ × ℕ) (ps : List (ℕ × ℕ × ℕ)) :
    posBytes (p :: ps) = u32le p.1 ++ (u32le p.2.1 ++ (u32le p.2.2 ++ posBytes ps)) := by
  simp [posBytes, List.append_assoc]

theorem u32le_length (n : ℕ) : (u32le n).length = 4 := rfl

theorem posBytes_length (ps : List (ℕ × ℕ × ℕ)) :
    (posBytes ps).length = 12 * ps.length := by
  induction ps with
  | nil => rfl
  | cons p ps ih =>
    rw [posBytes_cons]
    simp only [List.length_append, u32le_length, ih, List.length_cons]
    omega

theorem rdPositions_posBytes (ps : List (ℕ × ℕ × ℕ)) (tail : List ℕ)
    (h : ∀ p ∈ ps, p.1 < 4294967296 ∧ p.2.1 < 4294967296 ∧ p.2.2 < 4294967296) :
    rdPositions ps.length (posBytes ps ++ tail) = ps := by
  induction ps with
  | nil => rfl
  | cons p ps ih =>
    obtain ⟨h1, h2, h3⟩ := h p (List.mem_cons_self p ps)
    have hrest : ∀ q ∈ ps, q.1 < 4294967296 ∧ q.2.1 < 4294967296 ∧ q.2.2 < 4294967296 :=
      fun q hq => h q (List.mem_cons_of_mem p hq)
    rw [posBytes_cons, List.length_cons]
    have e1 : (u32le p.1 ++ (u32le p.2.1 ++ (u32le p.2.2 ++ posBytes ps))) ++ tail
        = u32le p.1 ++ (u32le p.2.1 ++ (u32le p.2.2 ++ (posBytes ps ++ tail))) := by
      simp [List.append_assoc]
    rw [e1, rdPositions]
    have d4 : (u32le p.1 ++ (u32le p.2.1 ++ (u32le p.2.2 ++ (posBytes ps ++ tail)))).drop 4
        = u32le p.2.1 ++ (u32le p.2.2 ++ (posBytes ps ++ tail)) := drop4_u32le _ _
    have d8 : (u32le p.1 ++ (u32le p.2.1 ++ (u32le p.2.2 ++ (posBytes ps ++ tail)))).drop 8
        = u32le p.2.2 ++ (posBytes ps ++ tail) := by
      rw [show (8 : ℕ) = 4 + 4 from rfl, ← List.drop_drop, d4, drop4_u32le]
    have d12 : (u32le p.1 ++ (u32le p.2.1 ++ (u32le p.2.2 ++ (posBytes ps ++ tail)))).drop 12
        = posBytes ps ++ tail := by
      rw [show (12 : ℕ) = 8 + 4 from rfl, ← List.drop_drop, d8, drop4_u32le]
    rw [d4, d8, d12, rd4_u32le p.1 h1, rd4_u32le p.2.1 h2, rd4_u32le p.2.2 h3, ih hrest]

theorem colorBytes_nil : colorBytes [] = [] := rfl

theorem colorBytes_cons (c : ℚ × ℚ × ℚ) (cs : List (ℚ × ℚ × ℚ)) :
    colorBytes (c :: cs) =
      colorByte c.1 :: colorByte c.2.1 :: colorByte c.2.2 :: colorBytes cs := by
  simp [colorBytes]

theorem colorBytes_length (cs : List (ℚ × ℚ × ℚ)) :
    (colorBytes cs).length = 3 * cs.length := by
  induction cs with
  | nil => rfl
  | cons c cs ih =>
    rw [colorBytes_cons]
    simp only [List.length_cons, ih]
    omega

theorem colorBytes_getD (cs : List (ℚ × ℚ × ℚ)) (i : ℕ) (h : i < cs.length) :
    (colorBytes cs).getD (3 * i) 0 = colorByte (cs.get ⟨i, h⟩).1 ∧
    (colorBytes cs).getD (3 * i + 1) 0 = colorByte (cs.get ⟨i, h⟩).2.1 ∧
    (colorBytes cs).getD (3 * i + 2) 0 = colorByte (cs.get ⟨i, h⟩).2.2 := by
  induction cs generalizing i with
  | nil => exact absurd h (by simp)
  | cons c cs ih =>
    rw [colorBytes_cons]
    cases i with
    | zero => simp
    | succ j =>
      have hj : j < cs.length := by simpa using h
      have e0 : 3 * (j + 1) = (3 * j) + 3 := by omega
      have e1 : 3 * (j + 1) + 1 = (3 * j + 1) + 3 := by omega
      have e2 : 3 * (j + 1) + 2 = (3 * j + 2) + 3 := by omega
      have gd : ∀ n : ℕ, (colorByte c.1 :: colorByte c.2.1 :: colorByte c.2.2 ::
          colorBytes cs).getD (n + 3) 0 = (colorBytes cs).getD n 0 := by
        intro n
        have : n + 3 = ((n + 1) + 1) + 1 := by omega
        rw [this, List.getD_cons_succ, List.getD_cons_succ, List.getD_cons_succ]
      obtain ⟨ha, hb, hc⟩ := ih j hj
      refine ⟨?_, ?_, ?_⟩
      · rw [e0, gd, ha]; rfl
      · rw [e1, gd, hb]; rfl
      · rw [e2, gd, hc]; rfl

theorem tbb_drop5 (pc : PointCloud) :
    (to_binary_buffer pc).drop 5 =
      posBytes pc.positions ++ (if pc.has_colors then colorBytes pc.colors else []) := by
  rw [to_binary_buffer, u32le_cons]
  rfl

theorem tbb_length (pc : PointCloud) :
    (to_binary_buffer pc).length =
      5 + 12 * pc.positions.length +
        (if pc.has_colors then 3 * pc.colors.length else 0) := by
  rw [to_binary_buffer]
  simp only [List.length_append, u32le, List.length_cons, List.length_nil,
    posBytes_length]
  cases hc : pc.has_colors <;> simp [colorBytes_length]

theorem tbb_getD4 (pc : PointCloud) :
    (to_binary_buffer pc).getD 4 0 = (if pc.has_colors then 1 else 0) := by
  rw [to_binary_buffer, u32le_cons]
  rfl

theorem tbb_rd4 (pc : PointCloud) (h : pc.positions.length < 4294967296) :
    rd4 (to_binary_buffer pc) = pc.positions.length := by
  rw [to_binary_buffer]
  exact rd4_u32le _ h _

theorem getD_drop (l : List ℕ) (m n : ℕ) :
    (l.drop m).getD n 0 = l.getD (m + n) 0 := by
  rw [List.getD_eq_getElem?_getD, List.getD_eq_getElem?_getD, List.getElem?_drop]

theorem tbb_color_block (pc : PointCloud) (hcb : pc.has_colors = true) :
    (to_binary_buffer pc).drop (5 + 12 * pc.positions.length) = colorBytes pc.colors := by
  rw [← List.drop_drop, tbb_drop5, hcb]
  exact List.drop_left' (posBytes_length _)

/-! ### Claim C1 -/

/-- C1: `to_binary_buffer` emits exactly the declared wire layout: bytes 0-3
are the point count as an unsigned 32-bit little-endian integer, byte 4 is
the `has_colors` flag with value 0 or 1, bytes 5..5+12N-1 are the N
positions as contiguous little-endian float32 words (x,y,z per point),
followed, only when colors are present, by N*3 color bytes and nothing
else (total length 5+12N or 5+15N, no padding); decoding the §4.5 layout
recovers the position words, hence the float32 positions exactly. -/
theorem c1_wire_format (pc : PointCloud)
    (hn : pc.positions.length < 4294967296)
    (hp : ∀ p ∈ pc.positions, p.1 < 4294967296 ∧ p.2.1 < 4294967296 ∧ p.2.2 < 4294967296)
    (hc : pc.has_colors = true → pc.colors.length = pc.positions.length) :
    to_binary_buffer pc =
      u32le pc.positions.length ++ [if pc.has_colors then 1 else 0]
        ++ posBytes pc.positions
        ++ (if pc.has_colors then colorBytes pc.colors else [])
    ∧ (u32le pc.positions.length).length = 4
    ∧ rd4 (to_binary_buffer pc) = pc.positions.length
    ∧ (to_binary_buffer pc).getD 4 0 = (if pc.has_colors then 1 else 0)
    ∧ ((to_binary_buffer pc).getD 4 0 = 0 ∨ (to_binary_buffer pc).getD 4 0 = 1)
    ∧ (posBytes pc.positions).length = 12 * pc.positions.length
    ∧ (to_binary_buffer pc).length =
        5 + 12 * pc.positions.length +
          (if pc.has_colors then 3 * pc.positions.length else 0)
    ∧ decode_positions (to_binary_buffer pc) = pc.positions := by
  refine ⟨rfl, rfl, tbb_rd4 pc hn, tbb_getD4 pc, ?_, posBytes_length _, ?_, ?_⟩
  · rw [tbb_getD4]
    cases pc.has_colors <;> simp
  · rw [tbb_length]
    cases hcb : pc.has_colors
    · simp
    · simp [hc hcb]
  · rw [decode_positions, tbb_rd4 pc hn, tbb_drop5]
    exact rdPositions_posBytes _ _ hp

theorem c1_wire_format_witness :
    decode_positions (to_binary_buffer c1PC) =
      [(1, 2, 3), (1065353216, 5, 4000000000)]
    ∧ (to_binary_buffer c1PC).length = 35 := by
  have h := c1_wire_format c1PC (by decide) (by decide) (fun _ => by decide)
  refine ⟨h.2.2.2.2.2.2.2, ?_⟩
  have e := h.2.2.2.2.2.2.1
  rw [e]
  decide

/-! ### Claim C2 -/

/-- C2 (amended): each color byte emitted by `to_binary_buffer` is the
*truncation toward zero* of `clamp(color*255, 0, 255)` — the floor of the
clipped, non-negative value, as produced by `.clip(0, 255).astype(np.uint8)`
— not its rounding to the nearest integer. -/
theorem c2_color_truncation (pc : PointCloud) (hcb : pc.has_colors = true) :
    ∀ i (h : i < pc.colors.length),
      (to_binary_buffer pc).getD (5 + 12 * pc.positions.length + 3 * i) 0
          = (Int.floor (min (max ((pc.colors.get ⟨i, h⟩).1 * 255) 0) 255)).toNat
      ∧ (to_binary_buffer pc).getD (5 + 12 * pc.positions.length + (3 * i + 1)) 0
          = (Int.floor (min (max ((pc.colors.get ⟨i, h⟩).2.1 * 255) 0) 255)).toNat
      ∧ (to_binary_buffer pc).getD (5 + 12 * pc.positions.length + (3 * i + 2)) 0
          = (Int.floor (min (max ((pc.colors.get ⟨i, h⟩).2.2 * 255) 0) 255)).toNat := by
  intro i h
  have key : ∀ k, (to_binary_buffer pc).getD (5 + 12 * pc.positions.length + k) 0
      = (colorBytes pc.colors).getD k 0 := by
    intro k
    rw [← tbb_color_block pc hcb, getD_drop]
  obtain ⟨ha, hb, hc2⟩ := colorBytes_getD pc.colors i h
  exact ⟨by rw [key, ha]; rfl, by rw [key, hb]; rfl, by rw [key, hc2]; rfl⟩

theorem clamp_eq (x : ℚ) (h0 : 0 ≤ x) (h255 : x ≤ 255) :
    min (max x 0) 255 = x := by
  rw [max_eq_left h0, min_eq_left h255]

theorem c2_color_truncation_witness :
    (to_binary_buffer c2PC).getD 17 0 = 127
    ∧ (to_binary_buffer c2PC).getD 18 0 = 191
    ∧ (to_binary_buffer c2PC).getD 19 0 = 255 := by
  obtain ⟨h1, h2, h3⟩ := c2_color_truncation c2PC rfl 0 (by decide)
  have e1 : 5 + 12 * c2PC.positions.length + 3 * 0 = 17 := by decide
  have e2 : 5 + 12 * c2PC.positions.length + (3 * 0 + 1) = 18 := by decide
  have e3 : 5 + 12 * c2PC.positions.length + (3 * 0 + 2) = 19 := by decide
  rw [e1] at h1
  rw [e2] at h2
  rw [e3] at h3
  have v1 : (Int.floor (min (max (((1 : ℚ)/2) * 255) 0) 255)).toNat = 127 := by
    rw [clamp_eq _ (by norm_num) (by norm_num)]
    norm_num
    decide
  have v2 : (Int.floor (min (max (((3 : ℚ)/4) * 255) 0) 255)).toNat = 191 := by
    rw [clamp_eq _ (by norm_num) (by norm_num)]
    norm_num
    decide
  have v3 : (Int.floor (min (max ((1 : ℚ) * 255) 0) 255)).toNat = 255 := by
    rw [clamp_eq _ (by norm_num) (by norm_num)]
    norm_num
    decide
  exact ⟨v1 ▸ h1, v2 ▸ h2, v3 ▸ h3⟩

theorem c2_round_counterexample :
    (to_binary_buffer c2BadPC).getD 17 0 = 0
    ∧ specColorByte (3/1024) = 1
    ∧ (to_binary_buffer c2BadPC).getD 17 0 ≠ (specColorByte (3/1024)).toNat := by
  have key0 : (to_binary_buffer c2BadPC).getD 17 0
      = (colorBytes c2BadPC.colors).getD 0 0 := by
    rw [show (17 : ℕ) = 5 + 12 * c2BadPC.positions.length + 0 from by decide,
      ← tbb_color_block c2BadPC rfl, getD_drop]
  have key : (to_binary_buffer c2BadPC).getD 17 0 = colorByte ((3 : ℚ)/1024) :=
    key0.trans rfl
  have hcb : colorByte ((3 : ℚ)/1024) = 0 := by
    rw [colorByte, clamp_eq _ (by norm_num) (by norm_num)]
    norm_num
  have hs : specColorByte ((3 : ℚ)/1024) = 1 := by
    rw [specColorByte, clamp_eq _ (by norm_num) (by norm_num), round_eq]
    norm_num
  refine ⟨key.trans hcb, hs, ?_⟩
  rw [key.trans hcb, hs]
  decide

/-! ### Fold lemmas for min/max reductions -/

theorem foldl_min_le_all (l : List ℚ) (a : ℚ) :
    l.foldl min a ≤ a ∧ ∀ x ∈ l, l.foldl min a ≤ x := by
  induction l generalizing a with
  | nil => exact ⟨le_refl a, by simp⟩
  | cons b l ih =>
    simp only [List.foldl_cons]
    obtain ⟨h1, h2⟩ := ih (min a b)
    refine ⟨le_trans h1 (min_le_left a b), ?_⟩
    intro x hx
    rcases List.mem_cons.mp hx with hx | hx
    · rw [hx]
      exact le_trans h1 (min_le_right a b)
    · exact h2 x hx

theorem foldl_min_mem (l : List ℚ) (a : ℚ) :
    l.foldl min a = a ∨ l.foldl min a ∈ l := by
  induction l generalizing a with
  | nil => exact Or.inl rfl
  | cons b l ih =>
    rcases ih (min a b) with h | h
    · rcases min_choice a b with hm | hm
      · exact Or.inl (by rw [List.foldl_cons, h, hm])
      · exact Or.inr (by rw [List.foldl_cons, h, hm]; exact List.mem_cons_self b l)
    · exact Or.inr (List.mem_cons_of_mem b h)

theorem foldl_max_ge_all (l : List ℚ) (a : ℚ) :
    a ≤ l.foldl max a ∧ ∀ x ∈ l, x ≤ l.foldl max a := by
  induction l generalizing a with
  | nil => exact ⟨le_refl a, by simp⟩
  | cons b l ih =>
    simp only [List.foldl_cons]
    obtain ⟨h1, h2⟩ := ih (max a b)
    refine ⟨le_trans (le_max_left a b) h1, ?_⟩
    intro x hx
    rcases List.mem_cons.mp hx with hx | hx
    · rw [hx]
      exact le_trans (le_max_right a b) h1
    · exact h2 x hx

theorem foldl_max_mem (l : List ℚ) (a : ℚ) :
    l.foldl max a = a ∨ l.foldl max a ∈ l := by
  induction l generalizing a with
  | nil => exact Or.inl rfl
  | cons b l ih =>
    rcases ih (max a b) with h | h
    · rcases max_choice a b with hm | hm
      · exact Or.inl (by rw [List.foldl_cons, h, hm])
      · exact Or.inr (by rw [List.foldl_cons, h, hm]; exact List.mem_cons_self b l)
    · exact Or.inr (List.mem_cons_of_mem b h)

theorem foldl_max_le (l : List ℚ) (a b : ℚ) (ha : a ≤ b) (h : ∀ x ∈ l, x ≤ b) :
    l.foldl max a ≤ b := by
  rcases foldl_max_mem l a with hm | hm
  · exact hm.trans_le ha
  · exact h _ hm

/-! ### Color-normalisation lemmas -/

theorem le_colorMax_of_mem (data : List (List ℚ)) (c : ℚ)
    (hc : c ∈ colorEntries data) : c ≤ colorMax data := by
  rw [colorMax]
  cases he : colorEntries data with
  | nil => rw [he] at hc; exact absurd hc (by simp)
  | cons x xs =>
    rw [he] at hc
    rcases List.mem_cons.mp hc with hx | hx
    · exact hx ▸ (foldl_max_ge_all xs x).1
    · exact (foldl_max_ge_all xs x).2 c hx

theorem colorMax_le_of_all (data : List (List ℚ)) (b : ℚ)
    (hne : colorEntries data ≠ [])
    (h : ∀ c ∈ colorEntries data, c ≤ b) : colorMax data ≤ b := by
  rw [colorMax]
  cases he : colorEntries data with
  | nil => exact absurd he hne
  | cons x xs =>
    refine foldl_max_le xs x b (h x (by rw [he]; exact List.mem_cons_self x xs)) ?_
    intro y hy
    exact h y (by rw [he]; exact List.mem_cons_of_mem x hy)

theorem colorEntries_ne_nil (data : List (List ℚ)) (r : List ℚ) (rest : List (List ℚ))
    (hdata : data = r :: rest) (hr : 6 ≤ r.length) : colorEntries data ≠ [] := by
  have hrow : (r.drop 3).take 3 ≠ [] := by
    apply List.ne_nil_of_length_pos
    rw [List.length_take, List.length_drop]
    omega
  obtain ⟨x, hx⟩ := List.exists_mem_of_ne_nil _ hrow
  have : x ∈ colorEntries data := by
    rw [hdata, colorEntries]
    exact List.mem_flatMap.mpr ⟨r, List.mem_cons_self r rest, hx⟩
  exact fun hcontra => by rw [hcontra] at this; exact absurd this (by simp)

theorem numCols_eq (data : List (List ℚ)) (r : List ℚ) (rest : List (List ℚ))
    (hdata : data = r :: rest) : numCols data = r.length := by
  rw [hdata, numCols]
  rfl

theorem scaleRow_take6 (r : List ℚ) (hr : 6 ≤ r.length) :
    (scaleRow r).take 6 =
      r.take 3 ++ ((r.drop 3).take 3).map (fun c => c / 255) := by
  have h3 : (r.take 3).length = 3 := by
    rw [List.length_take]
    omega
  have hm : (((r.drop 3).take 3).map (fun c => c / 255)).length = 3 := by
    rw [List.length_map, List.length_take, List.length_drop]
    omega
  rw [scaleRow, List.append_assoc, List.take_append_eq_append_take, h3,
    List.take_of_length_le (by rw [h3]; norm_num : (r.take 3).length ≤ 6),
    show (6 : ℕ) - 3 = 3 from rfl, List.take_append_eq_append_take, hm,
    List.take_of_length_le hm.le, show (3 : ℕ) - 3 = 0 from rfl, List.take_zero,
    List.append_nil]

/-! ### Claim C5 -/

theorem load_from_table_threshold (data : List (List ℚ)) (k : ℕ)
    (hrect : ∀ r ∈ data, r.length = k) (hk : 6 ≤ k) (hne : data ≠ []) :
    ((∀ c ∈ colorEntries data, c ≤ 3/2) →
        load_from_table data = (data.map (fun r => r.take 6), true))
    ∧ ((∃ c ∈ colorEntries data, 3/2 < c) →
        load_from_table data =
          (data.map (fun r =>
            r.take 3 ++ ((r.drop 3).take 3).map (fun c => c / 255)), true)) := by
  obtain ⟨r, rest, hdata⟩ : ∃ r rest, data = r :: rest := by
    cases data with
    | nil => exact absurd rfl hne
    | cons r rest => exact ⟨r, rest, rfl⟩
  have hr : r.length = k := hrect r (by rw [hdata]; exact List.mem_cons_self r rest)
  have hcols : 6 ≤ numCols data := by
    rw [numCols_eq data r rest hdata, hr]
    exact hk
  constructor
  · intro hall
    have hmax : colorMax data ≤ 3/2 :=
      colorMax_le_of_all data (3/2)
        (colorEntries_ne_nil data r rest hdata (hr ▸ hk)) hall
    rw [load_from_table, if_pos hcols, if_neg (not_lt.mpr hmax)]
  · intro ⟨c, hc, hgt⟩
    have hmax : 3/2 < colorMax data := lt_of_lt_of_le hgt (le_colorMax_of_mem data c hc)
    rw [load_from_table, if_pos hcols, if_pos hmax, List.map_map]
    refine congrArg (fun l => (l, true)) (List.map_congr_left ?_)
    intro row hrow
    exact scaleRow_take6 row (by rw [hrect row hrow]; exact hk)

/-- C5: the color-normalisation decision is a single global threshold over
the maximum of all color samples: if every color sample is at most 3/2 the
colors are returned unchanged (only the column slice to 6 is applied); if
any sample exceeds 3/2, every color channel of every point is divided by
exactly 255. -/
theorem c5_color_threshold (data : List (List ℚ)) (k : ℕ)
    (hrect : ∀ r ∈ data, r.length = k) (hk : 6 ≤ k) (hne : data ≠ []) :
    ((∀ c ∈ colorEntries data, c ≤ 3/2) →
        load_from_table data = (data.map (fun r => r.take 6), true))
    ∧ ((∃ c ∈ colorEntries data, 3/2 < c) →
        load_from_table data =
          (data.map (fun r =>
            r.take 3 ++ ((r.drop 3).take 3).map (fun c => c / 255)), true)) :=
  load_from_table_threshold data k hrect hk hne

theorem c5_color_threshold_witness :
    load_from_table c5Data =
      (c5Data.map (fun r =>
        r.take 3 ++ ((r.drop 3).take 3).map (fun c => c / 255)), true) := by
  have he : colorEntries c5Data = [200, 10, 10, 1, 1, 1] := rfl
  refine (c5_color_threshold c5Data 6 (by decide) (by decide) (by decide)).2 ?_
  exact ⟨200, by rw [he]; exact List.mem_cons_self _ _, by norm_num⟩

/-! ### Claim C4 -/

/-- C4 (amended): for a loaded cloud with color columns the colors always
pair one-to-one with the positions (each returned row carries both), and
every channel lies in [0, 1] *provided* the raw color samples are
non-negative and either all at most 1, or all at most 255 with at least one
above the 3/2 threshold.  Without that proviso (e.g. a sample in (1, 3/2])
the invariant fails, see the counterexample. -/
theorem c4_color_invariant (data : List (List ℚ)) (k : ℕ)
    (hrect : ∀ r ∈ data, r.length = k) (hk : 6 ≤ k) (hne : data ≠ [])
    (h0 : ∀ c ∈ colorEntries data, 0 ≤ c)
    (hcase : (∀ c ∈ colorEntries data, c ≤ 1)
      ∨ ((∃ c ∈ colorEntries data, 3/2 < c) ∧ ∀ c ∈ colorEntries data, c ≤ 255)) :
    (load_from_table data).2 = true
    ∧ (load_from_table data).1.length = data.length
    ∧ ∀ r ∈ (load_from_table data).1,
        r.length = 6 ∧ ∀ c ∈ r.drop 3, 0 ≤ c ∧ c ≤ 1 := by
  have hmem_entries : ∀ row ∈ data, ∀ c ∈ (row.drop 3).take 3, c ∈ colorEntries data := by
    intro row hrow c hc
    exact List.mem_flatMap.mpr ⟨row, hrow, hc⟩
  rcases hcase with hall | ⟨hex, hbound⟩
  · have heq := (load_from_table_threshold data k hrect hk hne).1
      (fun c hc => le_trans (hall c hc) (by norm_num))
    rw [heq]
    refine ⟨rfl, by rw [List.length_map], ?_⟩
    intro r hr
    obtain ⟨row, hrow, hmap⟩ := List.mem_map.mp hr
    have hlen : row.length = k := hrect row hrow
    refine ⟨by rw [← hmap, List.length_take]; omega, ?_⟩
    intro c hc
    rw [← hmap, List.drop_take] at hc
    have hc3 : c ∈ (row.drop 3).take 3 := by
      have : (6 : ℕ) - 3 = 3 := rfl
      rw [this] at hc
      exact hc
    have hcm := hmem_entries row hrow c hc3
    exact ⟨h0 c hcm, hall c hcm⟩
  · have heq := (load_from_table_threshold data k hrect hk hne).2 hex
    rw [heq]
    refine ⟨rfl, by rw [List.length_map], ?_⟩
    intro r hr
    obtain ⟨row, hrow, hmap⟩ := List.mem_map.mp hr
    have hlen : row.length = k := hrect row hrow
    have h3 : (row.take 3).length = 3 := by
      rw [List.length_take]
      omega
    refine ⟨?_, ?_⟩
    · rw [← hmap, List.length_append, h3, List.length_map, List.length_take,
        List.length_drop]
      omega
    · intro c hc
      rw [← hmap, List.drop_left' h3] at hc
      obtain ⟨x, hx, hxc⟩ := List.mem_map.mp hc
      have hxm := hmem_entries row hrow x hx
      constructor
      · rw [← hxc]
        exact div_nonneg (h0 x hxm) (by norm_num)
      · rw [← hxc]
        exact (div_le_one (by norm_num)).mpr (hbound x hxm)

theorem c4_color_invariant_witness :
    (load_from_table c4Data).2 = true
    ∧ (load_from_table c4Data).1.length = 1
    ∧ ∀ r ∈ (load_from_table c4Data).1,
        r.length = 6 ∧ ∀ c ∈ r.drop 3, 0 ≤ c ∧ c ≤ 1 := by
  have he : colorEntries c4Data = [255, 0, 51] := rfl
  have hmem : ∀ c ∈ colorEntries c4Data, c = 255 ∨ c = 0 ∨ c = 51 := by
    intro c hc
    rw [he] at hc
    simpa using hc
  have h := c4_color_invariant c4Data 6 (by decide) (by decide) (by decide)
    (fun c hc => by rcases hmem c hc with h | h | h <;> rw [h] <;> norm_num)
    (Or.inr ⟨⟨255, by rw [he]; exact List.mem_cons_self _ _, by norm_num⟩,
      fun c hc => by rcases hmem c hc with h | h | h <;> rw [h] <;> norm_num⟩)
  exact ⟨h.1, by rw [h.2.1]; rfl, h.2.2⟩

theorem c4_unit_range_counterexample :
    (load_from_table c4BadData).2 = true
    ∧ (load_from_table c4BadData).1 = [[0, 0, 0, 7/5, 0, 0]]
    ∧ (7 : ℚ)/5 ∈ (((load_from_table c4BadData).1.getD 0 []).drop 3)
    ∧ ¬((7 : ℚ)/5 ≤ 1) := by
  have hmax : colorMax c4BadData = max (max ((7 : ℚ)/5) 0) 0 := rfl
  have hmax' : colorMax c4BadData = (7 : ℚ)/5 := by
    rw [hmax, max_eq_left (by norm_num : (0 : ℚ) ≤ 7/5),
      max_eq_left (by norm_num : (0 : ℚ) ≤ 7/5)]
  have heq : load_from_table c4BadData = (c4BadData.map (fun r => r.take 6), true) := by
    rw [load_from_table, if_pos (by decide : 6 ≤ numCols c4BadData),
      if_neg (by rw [hmax']; norm_num)]
  refine ⟨by rw [heq], by rw [heq]; rfl, ?_, by norm_num⟩
  rw [heq]
  exact List.mem_cons_self _ _

/-! ### Claim C3 -/

theorem axisMin_spec (j : ℕ) (r0 : List ℚ) (rest : List (List ℚ)) :
    axisMin j r0 rest ∈ colVals j (r0 :: rest)
    ∧ ∀ v ∈ colVals j (r0 :: rest), axisMin j r0 rest ≤ v := by
  have hcons : colVals j (r0 :: rest) = r0.getD j 0 :: colVals j rest := rfl
  constructor
  · rcases foldl_min_mem (colVals j rest) (r0.getD j 0) with h | h
    · rw [hcons, axisMin, h]
      exact List.mem_cons_self _ _
    · rw [hcons, axisMin]
      exact List.mem_cons_of_mem _ h
  · intro v hv
    rw [hcons] at hv
    rcases List.mem_cons.mp hv with hv | hv
    · rw [axisMin, hv]
      exact (foldl_min_le_all _ _).1
    · rw [axisMin]
      exact (foldl_min_le_all _ _).2 v hv

theorem axisMax_spec (j : ℕ) (r0 : List ℚ) (rest : List (List ℚ)) :
    axisMax j r0 rest ∈ colVals j (r0 :: rest)
    ∧ ∀ v ∈ colVals j (r0 :: rest), v ≤ axisMax j r0 rest := by
  have hcons : colVals j (r0 :: rest) = r0.getD j 0 :: colVals j rest := rfl
  constructor
  · rcases foldl_max_mem (colVals j rest) (r0.getD j 0) with h | h
    · rw [hcons, axisMax, h]
      exact List.mem_cons_self _ _
    · rw [hcons, axisMax]
      exact List.mem_cons_of_mem _ h
  · intro v hv
    rw [hcons] at hv
    rcases List.mem_cons.mp hv with hv | hv
    · rw [axisMax, hv]
      exact (foldl_max_ge_all _ _).1
    · rw [axisMax]
      exact (foldl_max_ge_all _ _).2 v hv

/-- C3: `point_cloud_info` (the spec's `describe`) fails — with the
empty-reduction error §7 names `EmptyCloudError` — exactly when the cloud
has zero points, returning no (degenerate or other) bounds; on every
non-empty cloud with at least 3 columns per row it returns `bounds_min` /
`bounds_max` that are exactly the per-axis minimum and maximum over all
positions. -/
theorem c3_describe (file : String) (arr : List (List ℚ)) (hcb : Bool)
    (hrect : ∀ r ∈ arr, 3 ≤ r.length) :
    (arr = [] → point_cloud_info file arr hcb = Except.error InfoErr.emptyReduction)
    ∧ (arr ≠ [] → ∃ info, point_cloud_info file arr hcb = Except.ok info
        ∧ info.num_points = arr.length
        ∧ 0 < info.num_points
        ∧ (info.bounds_min.x ∈ colVals 0 arr ∧ ∀ v ∈ colVals 0 arr, info.bounds_min.x ≤ v)
        ∧ (info.bounds_min.y ∈ colVals 1 arr ∧ ∀ v ∈ colVals 1 arr, info.bounds_min.y ≤ v)
        ∧ (info.bounds_min.z ∈ colVals 2 arr ∧ ∀ v ∈ colVals 2 arr, info.bounds_min.z ≤ v)
        ∧ (info.bounds_max.x ∈ colVals 0 arr ∧ ∀ v ∈ colVals 0 arr, v ≤ info.bounds_max.x)
        ∧ (info.bounds_max.y ∈ colVals 1 arr ∧ ∀ v ∈ colVals 1 arr, v ≤ info.bounds_max.y)
        ∧ (info.bounds_max.z ∈ colVals 2 arr ∧ ∀ v ∈ colVals 2 arr, v ≤ info.bounds_max.z)) := by
  constructor
  · intro he
    rw [he]
    rfl
  · intro hne
    cases arr with
    | nil => exact absurd rfl hne
    | cons r0 rest =>
      have hr0 : 3 ≤ r0.length := hrect r0 (List.mem_cons_self r0 rest)
      have hcols : ¬(numCols (r0 :: rest) < 3) := by
        rw [numCols_eq (r0 :: rest) r0 rest rfl]
        omega
      rw [point_cloud_info, if_neg hcols]
      exact ⟨_, rfl, rfl, by simp, axisMin_spec 0 r0 rest, axisMin_spec 1 r0 rest,
        axisMin_spec 2 r0 rest, axisMax_spec 0 r0 rest, axisMax_spec 1 r0 rest,
        axisMax_spec 2 r0 rest⟩

theorem c3_describe_witness :
    point_cloud_info "scan.xyz" [] false = Except.error InfoErr.emptyReduction
    ∧ ∃ info, point_cloud_info "scan.xyz" c3Arr false = Except.ok info
        ∧ info.num_points = 2
        ∧ info.bounds_min.x ∈ colVals 0 c3Arr
        ∧ ∀ v ∈ colVals 0 c3Arr, info.bounds_min.x ≤ v := by
  constructor
  · exact (c3_describe "scan.xyz" [] false (by decide)).1 rfl
  · obtain ⟨info, hok, hnum, _, hminx, _⟩ :=
      (c3_describe "scan.xyz" c3Arr false (by decide)).2 (by decide)
    exact ⟨info, hok, by rw [hnum]; rfl, hminx.1, hminx.2⟩

/-! ### Claim C9 -/

/-- C9: evaluation of the loader at the failing input of the code bug.  On
an empty text file `np.loadtxt` yields an empty 1-d array, `reshape(1, -1)`
turns it into a 1×0 table, and `load_point_cloud` *returns* that as a cloud
(one row, zero columns, no colors) instead of raising; the explicit
`ValueError` raise is reached only when the text loader itself fails (e.g.
ragged rows), and a lone scalar row even dies on `data.shape[1]`.
`point_cloud_info` then crashes on the 1×0 cloud with an `IndexError`
rather than any load error. -/
theorem c9_empty_file_returns_cloud :
    load_point_cloud ".xyz" none [] = Except.ok ([([] : List ℚ)], false)
    ∧ load_point_cloud ".xyz" none [[1], [1, 2]] = Except.error LoadErr.unableToLoad
    ∧ load_point_cloud ".xyz" none [[5]] = Except.error LoadErr.shapeIndex
    ∧ point_cloud_info "empty.xyz" [[]] false = Except.error InfoErr.boundsIndex := by
  exact ⟨rfl, by decide, by decide, by decide⟩

theorem parseImageLine_eval (parts : List String) (h : wfImageLine parts) :
    parseImageLine parts = Except.ok (imageOfTokens parts) := by
  obtain ⟨hlen, h0, h1, h2, h3, h4, h5, h6, h7, h8⟩ := h
  have g : ∀ i, i < 10 → parts.get? i = some (parts.getD i "") := by
    intro i hi
    rw [List.get?_eq_getElem?, List.getD_eq_getElem?_getD,
      List.getElem?_eq_getElem (lt_of_lt_of_le hi hlen)]
    rfl
  obtain ⟨v0, hv0⟩ := Option.isSome_iff_exists.mp h0
  obtain ⟨v1, hv1⟩ := Option.isSome_iff_exists.mp h1
  obtain ⟨v2, hv2⟩ := Option.isSome_iff_exists.mp h2
  obtain ⟨v3, hv3⟩ := Option.isSome_iff_exists.mp h3
  obtain ⟨v4, hv4⟩ := Option.isSome_iff_exists.mp h4
  obtain ⟨v5, hv5⟩ := Option.isSome_iff_exists.mp h5
  obtain ⟨v6, hv6⟩ := Option.isSome_iff_exists.mp h6
  obtain ⟨v7, hv7⟩ := Option.isSome_iff_exists.mp h7
  obtain ⟨v8, hv8⟩ := Option.isSome_iff_exists.mp h8
  simp only [parseImageLine, geti, toInt, toFloat,
    g 0 (by norm_num), g 1 (by norm_num), g 2 (by norm_num), g 3 (by norm_num),
    g 4 (by norm_num), g 5 (by norm_num), g 6 (by norm_num), g 7 (by norm_num),
    g 8 (by norm_num), g 9 (by norm_num),
    hv0, hv1, hv2, hv3, hv4, hv5, hv6, hv7, hv8,
    imageOfTokens, pyIntD, pyFloatD, Option.getD_some, bind, Except.bind, pure]
  rfl

theorem filter_pairLines (ps : List (String × String))
    (h : ∀ p ∈ ps, wfImagePair p) :
    (pairLines ps).filter keepLine = pairLines ps := by
  apply List.filter_eq_self.mpr
  intro a ha
  obtain ⟨p, hp, hap⟩ := List.mem_flatMap.mp ha
  have hmem : a = p.1 ∨ a = p.2 := by simpa using hap
  rcases hmem with rfl | rfl
  · exact (h p hp).1
  · exact (h p hp).2.1

theorem imagesLoop_pairs (ps : List (String × String))
    (h : ∀ p ∈ ps, wfImagePair p) :
    imagesLoop (pairLines ps)
      = Except.ok (ps.map (fun p => imageOfTokens (tokens p.1))) := by
  induction ps with
  | nil => rfl
  | cons p ps ih =>
    obtain ⟨hk1, hk2, hwf⟩ := h p (List.mem_cons_self p ps)
    have hrest : ∀ q ∈ ps, wfImagePair q := fun q hq => h q (List.mem_cons_of_mem p hq)
    have hlen : ¬((tokens p.1).length < 10) := not_lt.mpr hwf.1
    have hpl : pairLines (p :: ps) = p.1 :: p.2 :: pairLines ps := by
      simp [pairLines]
    rw [hpl]
    simp only [imagesLoop, if_neg hlen, parseImageLine_eval (tokens p.1) hwf,
      ih hrest, bind, Except.bind, pure, List.map_cons]
    rfl

/-! ### Claim C6 -/

/-- C6: a COLMAP `images.txt` made of K well-formed odd/even line pairs
parses to exactly K `ImagePose` records, in file order, each field taken
verbatim from the parsed tokens of its odd line — id, quaternion
(w, x, y, z) exactly as given (not renormalised), translation, camera id
and name — and `load_colmap_workspace` returns exactly that list. -/
theorem c6_images_records (ps : List (String × String))
    (h : ∀ p ∈ ps, wfImagePair p) :
    parse_images_txt (pairLines ps)
        = Except.ok (ps.map (fun p => imageOfTokens (tokens p.1)))
    ∧ (ps.map (fun p => imageOfTokens (tokens p.1))).length = ps.length
    ∧ load_colmap_workspace ⟨none, some (pairLines ps), none⟩
        = Except.ok ⟨none, some (ps.map (fun p => imageOfTokens (tokens p.1))), none⟩
    ∧ ∀ p ∈ ps,
        imageOfTokens (tokens p.1) =
          ⟨pyIntD ((tokens p.1).getD 0 ""),
           ⟨pyFloatD ((tokens p.1).getD 1 ""), pyFloatD ((tokens p.1).getD 2 ""),
            pyFloatD ((tokens p.1).getD 3 ""), pyFloatD ((tokens p.1).getD 4 "")⟩,
           ⟨pyFloatD ((tokens p.1).getD 5 ""), pyFloatD ((tokens p.1).getD 6 ""),
            pyFloatD ((tokens p.1).getD 7 "")⟩,
           pyIntD ((tokens p.1).getD 8 ""),
           (tokens p.1).getD 9 ""⟩ := by
  have hparse : parse_images_txt (pairLines ps)
      = Except.ok (ps.map (fun p => imageOfTokens (tokens p.1))) := by
    rw [parse_images_txt, filter_pairLines ps h, imagesLoop_pairs ps h]
  refine ⟨hparse, by rw [List.length_map], ?_, fun p _ => rfl⟩
  simp only [load_colmap_workspace, hparse, bind, Except.bind, Except.map, pure]
  rfl

theorem c6_images_records_witness :
    parse_images_txt (pairLines c6Pairs)
        = Except.ok (c6Pairs.map (fun p => imageOfTokens (tokens p.1)))
    ∧ (c6Pairs.map (fun p => imageOfTokens (tokens p.1))).length = 2 := by
  have h := c6_images_records c6Pairs (by decide)
  exact ⟨h.1, by rw [h.2.1]; rfl⟩

/-! ### Claim C7 -/

/-- C7: a kept odd line with fewer than 10 tokens is skipped silently — it
emits no record, does not abort the parse, and consumes exactly one line of
input: parsing behaves as if the line were absent, so the following line is
not additionally skipped. -/
theorem c7_short_line_skipped (bad : String) (rest : List String)
    (hkeep : keepLine bad = true) (hshort : (tokens bad).length < 10) :
    parse_images_txt (bad :: rest) = parse_images_txt rest := by
  rw [parse_images_txt, parse_images_txt, List.filter_cons_of_pos hkeep]
  cases hf : rest.filter keepLine with
  | nil => simp [imagesLoop, if_pos hshort]
  | cons l ls => simp [imagesLoop, if_pos hshort]

theorem c7_short_line_skipped_witness :
    parse_images_txt ["7 1 0", "7 1 0 0 0 0 0 0 3 frame007.jpg", "100 200 1"]
      = parse_images_txt ["7 1 0 0 0 0 0 0 3 frame007.jpg", "100 200 1"] :=
  c7_short_line_skipped "7 1 0" ["7 1 0 0 0 0 0 0 3 frame007.jpg", "100 200 1"]
    (by decide) (by decide)

/-! ### Claim C8 -/

/-- C8 (amended): a numeric conversion failure in `cameras.txt` or
`points3D.txt` is fatal — it aborts the whole workspace load — and the
resulting parse error carries the offending token (but not the file or the
line, see the counterexample). -/
theorem c8_numeric_error_aborts (camLines ptLines : List String)
    (imgs pts : Option (List String)) (e e2 : PyErr)
    (hc : parse_cameras_txt camLines = Except.error e)
    (hp : parse_points3d_txt ptLines = Except.error e2) :
    load_colmap_workspace ⟨some camLines, imgs, pts⟩ = Except.error e
    ∧ load_colmap_workspace ⟨none, none, some ptLines⟩ = Except.error e2 := by
  constructor
  · simp only [load_colmap_workspace, hc, bind, Except.bind, Except.map]
  · simp only [load_colmap_workspace, hp, bind, Except.bind, Except.map, pure,
      Except.pure]

theorem c8_numeric_error_aborts_witness :
    load_colmap_workspace
        ⟨some ["x 1 2 3"], some ["7 1 0 0 0 0 0 0 3 a.jpg", "1 2 3"], none⟩
      = Except.error (PyErr.invalidInt "x")
    ∧ load_colmap_workspace ⟨none, none, some ["y 0 0 0 1 2 3 0.5"]⟩
      = Except.error (PyErr.invalidInt "y") :=
  c8_numeric_error_aborts ["x 1 2 3"] ["y 0 0 0 1 2 3 0.5"]
    (some ["7 1 0 0 0 0 0 0 3 a.jpg", "1 2 3"]) none
    (PyErr.invalidInt "x") (PyErr.invalidInt "y") (by decide) (by decide)

/-- C8 fails as stated: the error value carries only the offending token.
The same error `invalidInt "x"` results whether the bad token sits on line
1 or line 2 of `cameras.txt`, or in `points3D.txt` instead — so the error
identifies neither the line nor the file. -/
theorem c8_error_location_counterexample :
    parse_cameras_txt ["x 1 2 3"] = Except.error (PyErr.invalidInt "x")
    ∧ parse_cameras_txt ["1 P 2 3", "x 1 2 3"] = Except.error (PyErr.invalidInt "x")
    ∧ parse_points3d_txt ["x 0 0 0 1 2 3 0.5"] = Except.error (PyErr.invalidInt "x") := by
  refine ⟨by decide, by decide, by decide⟩

/-! ### Claim C10 -/

theorem mapM_toFloat_error (l : List String) (e : PyErr)
    (h : l.mapM toFloat = Except.error e) : ∃ t, e = PyErr.invalidFloat t := by
  induction l generalizing e with
  | nil =>
    rw [List.mapM_nil] at h
    exact absurd h (by simp [pure, Except.pure])
  | cons t l ih =>
    rw [List.mapM_cons] at h
    cases hf : pyFloat t with
    | none =>
      refine ⟨t, ?_⟩
      simp only [toFloat, hf, bind, Except.bind] at h
      exact (Except.error.inj h).symm
    | some q =>
      simp only [toFloat, hf, bind, Except.bind] at h
      cases hm : l.mapM toFloat with
      | error e2 =>
        rw [hm] at h
        simp only [Except.bind] at h
        obtain ⟨t2, ht2⟩ := ih e2 hm
        exact ⟨t2, (Except.error.inj h).symm.trans ht2⟩
      | ok vs =>
        rw [hm] at h
        simp only [bind, Except.bind, pure, Except.pure] at h
        exact absurd h (by simp)

theorem parseCameraLine_no_index (parts : List String) (h4 : 4 ≤ parts.length) :
    parseCameraLine parts ≠ Except.error PyErr.indexOutOfRange := by
  have g : ∀ i, i < 4 → parts.get? i = some (parts.getD i "") := by
    intro i hi
    rw [List.get?_eq_getElem?, List.getD_eq_getElem?_getD,
      List.getElem?_eq_getElem (lt_of_lt_of_le hi h4)]
    rfl
  intro hcontra
  simp only [parseCameraLine, geti, toInt,
    g 0 (by norm_num), g 1 (by norm_num), g 2 (by norm_num), g 3 (by norm_num),
    bind, Except.bind] at hcontra
  cases h0 : pyInt (parts.getD 0 "") with
  | none => rw [h0] at hcontra; exact absurd hcontra (by simp)
  | some v0 =>
    rw [h0] at hcontra
    cases h2 : pyInt (parts.getD 2 "") with
    | none => rw [h2] at hcontra; exact absurd hcontra (by simp)
    | some v2 =>
      rw [h2] at hcontra
      cases h3 : pyInt (parts.getD 3 "") with
      | none => rw [h3] at hcontra; exact absurd hcontra (by simp)
      | some v3 =>
        rw [h3] at hcontra
        cases hm : (parts.drop 4).mapM toFloat with
        | error e =>
          rw [hm] at hcontra
          obtain ⟨t, ht⟩ := mapM_toFloat_error _ _ hm
          rw [ht] at hcontra
          exact absurd hcontra (by simp)
        | ok vs =>
          rw [hm] at hcontra
          exact absurd hcontra (by simp [pure, Except.pure])

theorem mapM_cameras_no_index (ls : List String)
    (h : ∀ l ∈ ls, parseCameraLine (tokens l) ≠ Except.error PyErr.indexOutOfRange) :
    ls.mapM (fun l => parseCameraLine (tokens l)) ≠ Except.error PyErr.indexOutOfRange := by
  induction ls with
  | nil => decide
  | cons l ls ih =>
    rw [List.mapM_cons]
    intro hcontra
    cases hl : parseCameraLine (tokens l) with
    | error e =>
      rw [hl] at hcontra
      simp only [bind, Except.bind] at hcontra
      have he : e = PyErr.indexOutOfRange := Except.error.inj hcontra
      exact h l (List.mem_cons_self l ls) (he ▸ hl)
    | ok cam =>
      rw [hl] at hcontra
      simp only [bind, Except.bind] at hcontra
      cases hm : ls.mapM (fun l => parseCameraLine (tokens l)) with
      | error e2 =>
        rw [hm] at hcontra
        simp only [bind, Except.bind] at hcontra
        have he : e2 = PyErr.indexOutOfRange := Except.error.inj hcontra
        exact ih (fun q hq => h q (List.mem_cons_of_mem l hq)) (he ▸ hm)
      | ok cams =>
        rw [hm] at hcontra
        exact absurd hcontra (by simp [pure, Except.pure])

/-- C10 (amended): `parse_cameras_txt` indexes the first four tokens of
every kept line unconditionally.  When every kept line has at least 4
tokens no out-of-range error can occur (though the parse may still fail on
a non-numeric token, see the counterexample); a kept line with fewer than 4
tokens makes the whole parse fail with the out-of-range `IndexError` — the
short line is neither skipped nor reported as a numeric parse error. -/
theorem c10_cameras_indexing (lines : List String)
    (h : ∀ l ∈ lines, keepLine l = true → 4 ≤ (tokens l).length) :
    parse_cameras_txt lines ≠ Except.error PyErr.indexOutOfRange
    ∧ parse_cameras_txt ["1 PINHOLE 640"] = Except.error PyErr.indexOutOfRange := by
  refine ⟨?_, by decide⟩
  rw [parse_cameras_txt]
  apply mapM_cameras_no_index
  intro l hl
  obtain ⟨hmem, hkeep⟩ := List.mem_filter.mp hl
  exact parseCameraLine_no_index (tokens l) (h l hmem hkeep)

theorem c10_cameras_indexing_witness :
    parse_cameras_txt ["# cams", "3 PINHOLE 640 480 500.0 500.0 320.0 240.0"]
        ≠ Except.error PyErr.indexOutOfRange
    ∧ parse_cameras_txt ["1 PINHOLE 640"] = Except.error PyErr.indexOutOfRange :=
  c10_cameras_indexing ["# cams", "3 PINHOLE 640 480 500.0 500.0 320.0 240.0"]
    (by decide)

/-- C10 fails as stated in its success half: a file whose only kept line
has exactly 4 tokens still fails to parse when a token is non-numeric —
with a numeric conversion error, not an indexing one. -/
theorem c10_parse_success_counterexample :
    keepLine "1 PINHOLE x 480" = true
    ∧ (tokens "1 PINHOLE x 480").length = 4
    ∧ parse_cameras_txt ["1 PINHOLE x 480"] = Except.error (PyErr.invalidInt "x") := by
  refine ⟨by decide, by decide, by decide⟩

end PCSpec
